import Mathlib

set_option maxRecDepth 8000

/- Verification development for the timing-based cache/TLB detection
   programs (cache_info.c, cache_info_cores.c, tlb_info.c).  Latency
   curves measured by the probes are modelled as lists of rationals,
   one entry per sweep configuration, and the breakpoint-detection
   scans of the C code are translated loop by loop.  The randomized
   pointer-chase construction is modelled with the stream of random
   draws made explicit, and an uninitialized array cell is modelled
   as `none`. -/

/-- Consecutive-ratio step of a latency curve: `times[s] / times[s-1]`,
the quantity every detection loop compares against its threshold. -/
def growth (times : List ℚ) (s : ℕ) : ℚ := times.getD s 0 / times.getD (s - 1) 0

/-- The index list `[a, a+1, ..., a+b-1]`: the range of a C `for` loop. -/
def idxList : ℕ → ℕ → List ℕ
  | _, 0 => []
  | a, b + 1 => a :: idxList (a + 1) b

/-- First-match scan with early exit: return `out s` for the first index
`s` in the list satisfying `cond`, and `dflt` when none does.  This is the
shape of the `for`-loop-with-`break` detection scans in the C sources. -/
def scanFirst (cond : ℕ → Bool) (out : ℕ → ℕ) (dflt : ℕ) : List ℕ → ℕ
  | [] => dflt
  | s :: rest => if cond s then out s else scanFirst cond out dflt rest

/-- Stride sweep of `probe_cache_line_size` in cache_info.c (line 58). -/
def stridesFull : List ℕ := [8, 16, 32, 64, 128, 256, 512, 1024]

/-- Stride sweep of `probe_cache_line_size` in cache_info_cores.c (line 57). -/
def stridesCores : List ℕ := [8, 16, 32, 64, 128, 256]

/-- Footprint sweep of `probe_cache_sizes` in cache_info.c (lines 136-141). -/
def sizesFull : List ℕ :=
  [4096, 8192, 16384, 32768, 49152, 65536, 98304, 131072,
   196608, 262144, 393216, 524288, 786432, 1048576, 1572864,
   2097152, 3145728, 4194304, 6291456, 8388608,
   12582912, 16777216, 25165824, 33554432]

/-- Way-count sweep of `probe_associativity` in cache_info.c (line 215). -/
def waysList : List ℕ := [2, 4, 6, 8, 10, 12, 14, 16, 20, 24, 32]

/-- Stride sweep of `probe_page_size` in tlb_info.c (line 59). -/
def pageStrides : List ℕ := [512, 1024, 2048, 4096, 8192, 16384]

/-- Page-count sweep of `probe_tlb_size` in tlb_info.c (line 118). -/
def pagesList : List ℕ := [8, 16, 32, 64, 128, 256, 512, 1024, 2048, 4096]

/-- Detection scan of `probe_cache_line_size` (cache_info.c lines 87-95,
cache_info_cores.c lines 75-82): for `s` from 2 to `num_strides - 2`, the
first `s` with `norm_times[s]/norm_times[s-1] > 1.3` and
`norm_times[s+1]/norm_times[s] < 1.3` yields `strides[s]`; default 64. -/
def probe_cache_line_size_detect (strides : List ℕ) (times : List ℚ) : ℕ :=
  scanFirst
    (fun s => decide (13/10 < growth times s) && decide (growth times (s + 1) < 13/10))
    (fun s => strides.getD s 0) 64 (idxList 2 (strides.length - 3))

/-- Detection scan of `probe_page_size` (tlb_info.c lines 88-95): for `s`
from 2 to 5, the first `s` with `times[s]/times[s-1] < 0.6` yields
`strides[s-1]`; default 4096. -/
def probe_page_size_detect (times : List ℚ) : ℕ :=
  scanFirst (fun s => decide (growth times s < 3/5))
    (fun s => pageStrides.getD (s - 1) 0) 4096 (idxList 2 (pageStrides.length - 2))

/-- Detection scan of `probe_tlb_size` (tlb_info.c lines 175-182): for `t`
from 1 to 9, the first `t` with `times[t]/times[t-1] > 1.25` yields
`pages_to_test[t-1]` (the loop breaks there); default 64. -/
def probe_tlb_size_detect (times : List ℚ) : ℕ :=
  scanFirst (fun t => decide (5/4 < growth times t))
    (fun t => pagesList.getD (t - 1) 0) 64 (idxList 1 (pagesList.length - 1))

/-- One iteration of the `probe_associativity` detection loop
(cache_info.c lines 250-256): update `(detected, max_ratio)` when the
ratio at `t` beats the running maximum and exceeds 1.3. -/
def assocStep (times : List ℚ) (st : ℕ × ℚ) (t : ℕ) : ℕ × ℚ :=
  if st.2 < growth times t ∧ 13/10 < growth times t then
    (waysList.getD (t - 1) 0, growth times t)
  else st

/-- Detection scan of `probe_associativity` (cache_info.c lines 248-256):
running-maximum scan over `t = 1 .. 10` starting from `(8, 1.0)`. -/
def probe_associativity_detect (times : List ℚ) : ℕ :=
  ((idxList 1 (waysList.length - 1)).foldl (assocStep times) (8, 1)).1

/-- `sizes[s-1]` of the cache-size sweep, the footprint latched by the
knee-detection branches of `probe_cache_sizes`. -/
def szAt (s : ℕ) : ℕ := sizesFull.getD (s - 1) 0

/-- One iteration of the `probe_cache_sizes` knee-detection loop
(cache_info.c lines 189-198): the `if / else if / else if` chain over the
state `(l1, l2, l3)` at scan index `s`. -/
def kneeStep (times : List ℚ) (st : ℕ × ℕ × ℕ) (s : ℕ) : ℕ × ℕ × ℕ :=
  if st.1 = 0 ∧ szAt s ≤ 196608 ∧ 13/10 < growth times s then
    (szAt s, st.2.1, st.2.2)
  else if st.2.1 = 0 ∧ 196608 < szAt s ∧ szAt s ≤ 16777216 ∧ 13/10 < growth times s then
    (st.1, szAt s, st.2.2)
  else if st.2.2 = 0 ∧ 4194304 < szAt s ∧ 3/2 < growth times s then
    (st.1, st.2.1, szAt s)
  else st

/-- Detection scan of `probe_cache_sizes` (cache_info.c lines 185-198):
fold the branch chain over `s = 1 .. 23` starting from `(0, 0, 0)`. -/
def probe_cache_sizes_detect (times : List ℚ) : ℕ × ℕ × ℕ :=
  (idxList 1 (sizesFull.length - 1)).foldl (kneeStep times) (0, 0, 0)

/-- A jump qualifying for the L1 tier: footprint `sizes[s-1]` at most
192KiB and ratio above 1.3 (cache_info.c line 191). -/
def qual1 (times : List ℚ) (s : ℕ) : Prop := szAt s ≤ 196608 ∧ 13/10 < growth times s

/-- A jump qualifying for the L2 tier: footprint in (192KiB, 16MiB] and
ratio above 1.3 (cache_info.c line 193). -/
def qual2 (times : List ℚ) (s : ℕ) : Prop :=
  196608 < szAt s ∧ szAt s ≤ 16777216 ∧ 13/10 < growth times s

/-- A jump qualifying for the L3 tier: footprint above 4MiB and ratio
above 1.5 (cache_info.c line 195). -/
def qual3 (times : List ℚ) (s : ℕ) : Prop := 4194304 < szAt s ∧ 3/2 < growth times s

/-- Number of occurrences of `v` in the TLB trial results, as counted by
the inner loop of `main` (tlb_info.c lines 201-204). -/
def tlbCount (rs : List ℤ) (v : ℤ) : ℕ := (rs.filter (fun r => decide (r = v))).length

/-- One iteration of the majority-vote loop of `main` in tlb_info.c
(lines 200-209): replace the running `(tlb_size, max_count)` when the
count of `results[i]` strictly exceeds `max_count`. -/
def modeStep (rs : List ℤ) (st : ℤ × ℕ) (i : ℕ) : ℤ × ℕ :=
  if st.2 < tlbCount rs (rs.getD i 0) then (rs.getD i 0, tlbCount rs (rs.getD i 0)) else st

/-- The most-frequent-result selection of `main` in tlb_info.c (lines
198-209), starting from `(results[0], 1)`. -/
def tlbModeOf (rs : List ℤ) : ℤ :=
  ((idxList 0 rs.length).foldl (modeStep rs) (rs.getD 0 0, 1)).1

/-- Spec-side description (from section 8 of the spec): `v` is the value
of a most-frequent element of `rs`, and of the tied most-frequent values
it is the one occurring first in iteration order. -/
def FirstMode (rs : List ℤ) (v : ℤ) : Prop :=
  ∃ i, i < rs.length ∧ v = rs.getD i 0 ∧
    (∀ j < rs.length, tlbCount rs (rs.getD j 0) ≤ tlbCount rs (rs.getD i 0)) ∧
    (∀ j < i, tlbCount rs (rs.getD j 0) < tlbCount rs (rs.getD i 0))

/-- Spec-side description of maximum-ratio detection for the
associativity probe: either no ratio exceeds 1.3 and the result is the
default 8, or the result is the way count just before the first
occurrence of the largest ratio, that ratio exceeding 1.3. -/
def AssocMaxSpec (times : List ℚ) (d : ℕ) : Prop :=
  ((∀ t < 11, 1 ≤ t → ¬ (13/10 < growth times t)) ∧ d = 8) ∨
  (∃ t, t < 11 ∧ 1 ≤ t ∧ 13/10 < growth times t ∧
    (∀ s < 11, 1 ≤ s → growth times s ≤ growth times t) ∧
    (∀ s < t, 1 ≤ s → growth times s < growth times t) ∧
    d = waysList.getD (t - 1) 0)

/-- Spec-side description of first-match detection for the TLB probe:
either no ratio exceeds 1.25 and the result is the default 64, or the
result is the page count just before the first ratio exceeding 1.25. -/
def TlbFirstSpec (times : List ℚ) (d : ℕ) : Prop :=
  ((∀ t < 10, 1 ≤ t → ¬ (5/4 < growth times t)) ∧ d = 64) ∨
  (∃ t, t < 10 ∧ 1 ≤ t ∧ 5/4 < growth times t ∧
    (∀ s < t, 1 ≤ s → ¬ (5/4 < growth times s)) ∧
    d = pagesList.getD (t - 1) 0)

/-- Spec-side description of what a global-maximum strategy would return
for the TLB probe, following the claim's words: the page count just
before the single largest ratio that also exceeds 1.25. -/
def TlbMaxSpec (times : List ℚ) (d : ℕ) : Prop :=
  ((∀ t < 10, 1 ≤ t → ¬ (5/4 < growth times t)) ∧ d = 64) ∨
  (∃ t, t < 10 ∧ 1 ≤ t ∧ 5/4 < growth times t ∧
    (∀ s < 10, 1 ≤ s → growth times s ≤ growth times t) ∧
    (∀ s < t, 1 ≤ s → growth times s < growth times t) ∧
    d = pagesList.getD (t - 1) 0)

/-- Invariant of the associativity running-maximum loop after the scan
has processed indices `1 .. hi-1`. -/
def AssocInv (times : List ℚ) (hi : ℕ) (st : ℕ × ℚ) : Prop :=
  (st = (8, 1) ∧ ∀ s < hi, 1 ≤ s → ¬ (13/10 < growth times s)) ∨
  (∃ t, t < hi ∧ 1 ≤ t ∧ 13/10 < growth times t ∧ st.2 = growth times t ∧
    st.1 = waysList.getD (t - 1) 0 ∧
    (∀ s < hi, 1 ≤ s → growth times s ≤ growth times t) ∧
    (∀ s < t, 1 ≤ s → growth times s < growth times t))

/-- Invariant of the cache-size knee-detection loop after the scan has
processed indices `1 .. hi-1`. -/
def KneeInv (times : List ℚ) (hi : ℕ) (st : ℕ × ℕ × ℕ) : Prop :=
  ((st.1 = 0 ∧ ∀ s < hi, 1 ≤ s → ¬ qual1 times s) ∨
    (∃ t, t < hi ∧ 1 ≤ t ∧ qual1 times t ∧ st.1 = szAt t ∧
      ∀ s < t, 1 ≤ s → ¬ qual1 times s)) ∧
  ((st.2.1 = 0 ∧ ∀ s < hi, 1 ≤ s → ¬ qual2 times s) ∨
    (∃ t, t < hi ∧ 1 ≤ t ∧ qual2 times t ∧ st.2.1 = szAt t ∧
      ∀ s < t, 1 ≤ s → ¬ qual2 times s)) ∧
  (st.2.2 = 0 ∨
    (∃ t, t < hi ∧ 1 ≤ t ∧ qual3 times t ∧ st.2.2 = szAt t ∧
      (16777216 < szAt t ∨ ∃ u, u < t ∧ 1 ≤ u ∧ qual2 times u ∧ st.2.1 = szAt u)))

/-- Invariant of the majority-vote loop after processing indices
`0 .. hi-1`. -/
def ModeInv (rs : List ℤ) (hi : ℕ) (st : ℤ × ℕ) : Prop :=
  (hi = 0 ∧ st = (rs.getD 0 0, 1)) ∨
  (∃ t, t < hi ∧ st.1 = rs.getD t 0 ∧ st.2 = tlbCount rs (rs.getD t 0) ∧
    (∀ j < hi, tlbCount rs (rs.getD j 0) ≤ st.2) ∧
    (∀ j < t, tlbCount rs (rs.getD j 0) < st.2))

/-- Swap of two array cells, as done by the Fisher-Yates loop. -/
def swapList (a : List ℕ) (i j : ℕ) : List ℕ :=
  (a.set i (a.getD j 0)).set j (a.getD i 0)

/-- Initial successor array `array[i] = (i + 1) % count` (cache_info.c
lines 103-105, cache_info_cores.c lines 38-39). -/
def chaseInit (n : ℕ) : List ℕ := (List.range n).map (fun i => (i + 1) % n)

/-- Fisher-Yates shuffle (cache_info.c lines 107-112, cache_info_cores.c
lines 41-46): for `i` from `count - 1` down to 1, swap `a[i]` with
`a[rand() % (i+1)]`; `js` is the stream of raw `rand()` draws. -/
def fyShuffle : List ℕ → ℕ → List ℕ → List ℕ
  | a, _, [] => a
  | a, 0, _ :: _ => a
  | a, i + 1, r :: rest => fyShuffle (swapList a (i + 1) (r % (i + 2))) i rest

/-- Chase-rebuild loop of cache_info.c lines 114-126: walk the shuffled
value sequence writing `chase[pos] = array[i]; pos = array[i]`, starting
from `pos = 0`, into a fresh (uninitialized, modelled `none`) buffer. -/
def chaseBuild : List ℕ → List (Option ℕ) → ℕ → List (Option ℕ)
  | [], chase, _ => chase
  | v :: rest, chase, pos => chaseBuild rest (chase.set pos (some v)) v

/-- `create_pointer_chase` of cache_info.c (lines 102-130), with the
`rand()` draw stream `js` made explicit.  Cells of the rebuilt chase
buffer that the loop never writes stay `none` (uninitialized memory). -/
def create_pointer_chase (n : ℕ) (js : List ℕ) : List (Option ℕ) :=
  chaseBuild (fyShuffle (chaseInit n) (n - 1) js) (List.replicate n none) 0

/-- `create_pointer_chase` of cache_info_cores.c (lines 37-47): just the
shuffled successor array, every cell initialized. -/
def create_pointer_chase_cores (n : ℕ) (js : List ℕ) : List ℕ :=
  fyShuffle (chaseInit n) (n - 1) js

/-- `k`-step traversal `idx = array[idx]` over a possibly partially
uninitialized chase array; propagates `none` when it hits an
uninitialized cell. -/
def chaseOrbit (a : List (Option ℕ)) (start : ℕ) : ℕ → Option ℕ
  | 0 => some start
  | k + 1 => (chaseOrbit a start k).bind (fun p => a.getD p none)

/-- `k`-step traversal `idx = array[idx]` over a fully initialized chase
array. -/
def chaseOrbitN (a : List ℕ) (start : ℕ) : ℕ → ℕ
  | 0 => start
  | k + 1 => a.getD (chaseOrbitN a start k) 0

/-- The claimed cycle property: from every start, `N` traversal steps
visit every element (hence each exactly once) and step `N` returns to
the start.  `Option`-valued arrays: hitting an uninitialized cell fails. -/
def chaseCycleOk (a : List (Option ℕ)) : Bool :=
  (List.range a.length).all fun start =>
    (chaseOrbit a start a.length == some start) &&
    ((List.range a.length).all fun x =>
      (List.range a.length).any fun k => chaseOrbit a start k == some x)

/-- The claimed cycle property for a fully initialized chase array. -/
def chaseCycleOkN (a : List ℕ) : Bool :=
  (List.range a.length).all fun start =>
    (chaseOrbitN a start a.length == start) &&
    ((List.range a.length).all fun x =>
      (List.range a.length).any fun k => chaseOrbitN a start k == x)

/-- `probe_cache_line_size` with its allocation check (cache_info.c
lines 51-52): a failed allocation returns 64 before any measurement. -/
def probe_cache_line_size_model (allocOk : Bool) (times : List ℚ) : ℕ :=
  if allocOk then probe_cache_line_size_detect stridesFull times else 64

/-- `probe_associativity` with its allocation check (cache_info.c
lines 208-209). -/
def probe_associativity_model (allocOk : Bool) (times : List ℚ) : ℕ :=
  if allocOk then probe_associativity_detect times else 8

/-- `probe_page_size` with its allocation check (tlb_info.c lines 51-52). -/
def probe_page_size_model (allocOk : Bool) (times : List ℚ) : ℕ :=
  if allocOk then probe_page_size_detect times else 4096

/-- `probe_tlb_size` with its allocation check (tlb_info.c lines 110-111). -/
def probe_tlb_size_model (allocOk : Bool) (times : List ℚ) : ℕ :=
  if allocOk then probe_tlb_size_detect times else 64

/-- Index of the first failed allocation in the `probe_cache_sizes`
measurement loop (cache_info.c lines 152-153), 24 when all succeed. -/
def firstAllocFail (allocOk : ℕ → Bool) : ℕ :=
  (((List.range 24).find? fun s => ! allocOk s).getD 24)

/-- `probe_cache_sizes` control flow around allocation (cache_info.c
lines 147-198): the measurement loop `break`s at the first failed
allocation, leaving `times[s]` holding uninitialized stack memory
(`garbage`) from that point on, and the knee-detection scan then runs
over the whole `times` array regardless. -/
def probe_cache_sizes_model (allocOk : ℕ → Bool) (measured garbage : ℕ → ℚ) : ℕ × ℕ × ℕ :=
  probe_cache_sizes_detect
    ((List.range 24).map fun s =>
      if s < firstAllocFail allocOk then measured s else garbage s)

/-- The synthetic normalized-time curve of the spec's end-to-end
line-size scenario, for strides 8 .. 1024. -/
def c2curve : List ℚ := [1, 1, 21/20, 7/5, 71/50, 1, 1, 1]

/-- A single exact step at index 4: low plateau of 4 values, high
plateau of 4 values, ratio 3 at the step. -/
def c3curve : List ℚ := [1, 1, 1, 1, 3, 3, 3, 3]

/-- Cache-size curve whose first L3-qualifying jump (ratio 2 at scan
index 20, footprint 8MiB) is claimed by the L2 tier, and whose second
one (scan index 23, footprint 24MiB) is taken by L3. -/
def c4curve : List ℚ :=
  [1, 1, 1, 1, 1, 1, 1, 1, 1, 1, 1, 1, 1, 1, 1, 1, 1, 1, 1, 1, 2, 2, 2, 4]

/-- Cache-size curve with clean jumps in the L1 (index 4), L2 (index 10)
and L3 (index 23) footprint ranges. -/
def c4wtimes : List ℚ :=
  [1, 1, 1, 1, 2, 2, 2, 2, 2, 2, 4, 4, 4, 4, 4, 4, 4, 4, 4, 4, 4, 4, 4, 8]

/-- TLB latency curve with a small above-threshold jump (ratio 1.3) at
`t = 1` followed by a strictly larger jump (ratio 2) at `t = 3`. -/
def c6curve : List ℚ :=
  [1, 13/10, 13/10, 13/5, 13/5, 13/5, 13/5, 13/5, 13/5, 13/5]

/-- The ten synthetic TLB trial results of the spec's majority-vote
scenario. -/
def tlbTrialResults : List ℤ := [64, 64, 128, 64, 64, 64, 32, 64, 64, 128]

theorem mem_idxList : ∀ (b a s : ℕ), s ∈ idxList a b ↔ a ≤ s ∧ s < a + b := by
  intro b
  induction b with
  | zero => intro a s; simp only [idxList, List.not_mem_nil, false_iff]; omega
  | succ b ih =>
    intro a s
    simp only [idxList, List.mem_cons, ih]
    omega

theorem scanFirst_eq_default (cond : ℕ → Bool) (out : ℕ → ℕ) (d : ℕ) :
    ∀ l : List ℕ, (∀ s ∈ l, cond s = false) → scanFirst cond out d l = d := by
  intro l
  induction l with
  | nil => intro _; rfl
  | cons s rest ih =>
    intro h
    have hs : cond s = false := h s (by simp)
    simp only [scanFirst, hs, Bool.false_eq_true, if_false]
    exact ih fun x hx => h x (by simp [hx])

theorem scanFirst_mem_or (cond : ℕ → Bool) (out : ℕ → ℕ) (d : ℕ) :
    ∀ l : List ℕ, scanFirst cond out d l = d ∨ ∃ s ∈ l, scanFirst cond out d l = out s := by
  intro l
  induction l with
  | nil => left; rfl
  | cons s rest ih =>
    by_cases hs : cond s = true
    · right; exact ⟨s, by simp, by simp [scanFirst, hs]⟩
    · have hs2 : cond s = false := by simpa using hs
      rcases ih with h | ⟨x, hx, he⟩
      · left; simpa [scanFirst, hs2] using h
      · right; exact ⟨x, by simp [hx], by simpa [scanFirst, hs2] using he⟩

theorem scanFirst_first (cond : ℕ → Bool) (out : ℕ → ℕ) (d k : ℕ) :
    ∀ b a, a ≤ k → k < a + b → (∀ s, a ≤ s → s < k → cond s = false) →
      cond k = true → scanFirst cond out d (idxList a b) = out k := by
  intro b
  induction b with
  | zero => intro a h1 h2 _ _; omega
  | succ b ih =>
    intro a hak hkb hbef hk
    rcases Nat.eq_or_lt_of_le hak with he | hlt
    · subst he; simp [idxList, scanFirst, hk]
    · have ha : cond a = false := hbef a le_rfl hlt
      have hstep : scanFirst cond out d (idxList a (b + 1)) =
          scanFirst cond out d (idxList (a + 1) b) := by
        simp only [idxList, scanFirst, ha, Bool.false_eq_true, if_false]
      rw [hstep]
      exact ih (a + 1) hlt (by omega) (fun s h1 h2 => hbef s (by omega) h2) hk

theorem replicate_getD (n : ℕ) (v : ℚ) : ∀ i : ℕ,
    (List.replicate n v).getD i 0 = if i < n then v else 0 := by
  induction n with
  | zero => intro i; simp
  | succ n ih =>
    intro i
    cases i with
    | zero => simp [List.replicate]
    | succ i =>
      rw [List.replicate_succ, List.getD_cons_succ, ih i]
      simp [Nat.succ_lt_succ_iff]

theorem growth_replicate (n : ℕ) (v : ℚ) (hv : 0 < v) (s : ℕ)
    (h1 : 1 ≤ s) (h2 : s < n) : growth (List.replicate n v) s = 1 := by
  rw [growth, replicate_getD, replicate_getD, if_pos h2, if_pos (by omega)]
  exact div_self (ne_of_gt hv)

theorem stepCurve_getD (m : ℕ) (lo hi : ℚ) : ∀ (k : ℕ) (i : ℕ),
    (List.replicate k lo ++ List.replicate m hi).getD i 0 =
      if i < k then lo else if i < k + m then hi else 0 := by
  intro k
  induction k with
  | zero =>
    intro i
    rw [List.replicate_zero, List.nil_append, replicate_getD]
    simp only [Nat.not_lt_zero, if_false, Nat.zero_add]
  | succ k ih =>
    intro i
    cases i with
    | zero => simp [List.replicate]
    | succ i =>
      rw [List.replicate_succ, List.cons_append, List.getD_cons_succ, ih i]
      have he : (i + 1 < k + 1 + m) = (i < k + m) := by
        apply propext; omega
      simp only [Nat.succ_lt_succ_iff, he]

theorem assoc_fold_mem (times : List ℚ) :
    ∀ (l : List ℕ) (st : ℕ × ℚ), (l.foldl (assocStep times) st).1 = st.1 ∨
      ∃ t ∈ l, (l.foldl (assocStep times) st).1 = waysList.getD (t - 1) 0 := by
  intro l
  induction l with
  | nil => intro st; left; rfl
  | cons t rest ih =>
    intro st
    rw [List.foldl_cons]
    rcases ih (assocStep times st t) with h | ⟨x, hx, he⟩
    · by_cases hc : st.2 < growth times t ∧ 13/10 < growth times t
      · right
        refine ⟨t, by simp, ?_⟩
        rw [h]; simp [assocStep, hc]
      · left; rw [h]; simp [assocStep, hc]
    · right; exact ⟨x, by simp [hx], he⟩

theorem assoc_fold_id (times : List ℚ) :
    ∀ (l : List ℕ) (st : ℕ × ℚ), (∀ t ∈ l, ¬ (13/10 < growth times t)) →
      l.foldl (assocStep times) st = st := by
  intro l
  induction l with
  | nil => intro st _; rfl
  | cons t rest ih =>
    intro st h
    rw [List.foldl_cons]
    have hc : ¬ (st.2 < growth times t ∧ 13/10 < growth times t) := by
      intro ⟨_, h2⟩; exact h t (by simp) h2
    rw [show assocStep times st t = st by simp [assocStep, hc]]
    exact ih st fun x hx => h x (by simp [hx])

/-- C1: the pointer-chase arrays built by `create_pointer_chase` are
claimed to always form a single cycle over all `N` elements; the code
violates this.  For `count = 2` with random draw 0 (a legal value of
`rand() % 2`), the cache_info.c variant rebuilds the chase into
`[some 1, none]` -- the cell at index 1 is never written and stays
uninitialized -- and the cores variant yields the identity permutation
`[0, 1]`, two self-loops; in both, a traversal from element 0 fails to
visit every element and return to its start. -/
theorem C1_pointer_chase_not_cycle :
    create_pointer_chase 2 [0] = [some 1, none] ∧
    chaseCycleOk (create_pointer_chase 2 [0]) = false ∧
    create_pointer_chase_cores 2 [0] = [0, 1] ∧
    chaseCycleOkN (create_pointer_chase_cores 2 [0]) = false := by
  refine ⟨rfl, ?_, rfl, ?_⟩ <;> decide

/-- C2 (counterexample): on the spec's synthetic normalized-time curve
`[1.0, 1.0, 1.05, 1.4, 1.42, 1.0, 1.0, 1.0]` the line-size detection of
`probe_cache_line_size` does not report 128 as the claim states. -/
theorem C2_counterexample : probe_cache_line_size_detect stridesFull c2curve ≠ 128 := by
  norm_num [probe_cache_line_size_detect, scanFirst, idxList, growth, c2curve, stridesFull]

/-- C2 (amended): on that curve the detector reports 64: the scan takes
the first index whose before-ratio exceeds 1.3 while the after-ratio
stays below 1.3, which is stride 64 (1.4/1.05 > 1.3, 1.42/1.4 < 1.3). -/
theorem C2_amended_result : probe_cache_line_size_detect stridesFull c2curve = 64 := by
  norm_num [probe_cache_line_size_detect, scanFirst, idxList, growth, c2curve, stridesFull]

/-- C3 (counterexample): on the single-step curve `[1,1,1,1,3,3,3,3]`
with the step at index `k = 4`, the detection does not report the
configuration at index `k - 1 = 3` (stride 64); it reports 128. -/
theorem C3_counterexample :
    probe_cache_line_size_detect stridesFull c3curve ≠ stridesFull.getD 3 0 := by
  norm_num [probe_cache_line_size_detect, scanFirst, idxList, growth, c3curve,
    stridesFull, List.getD]

/-- C3 (amended): for every curve that is constant at `lo > 0` before
index `k` and constant at `hi` with `hi/lo > 1.3` from index `k` on,
with `2 ≤ k` and at least two samples after the step, the detection
scan of `probe_cache_line_size` reports the sweep configuration at
index `k` (the first index of the higher plateau), independently of how
long the curve continues beyond the step. -/
theorem C3_amended_step_at_k (k m : ℕ) (lo hi : ℚ) (strides : List ℕ)
    (hk : 2 ≤ k) (hm : 2 ≤ m) (hlo : 0 < lo) (hr : 13/10 < hi / lo)
    (hlen : strides.length = k + m) :
    probe_cache_line_size_detect strides
      (List.replicate k lo ++ List.replicate m hi) = strides.getD k 0 := by
  have hdiv : (0:ℚ) < hi / lo := lt_trans (by norm_num) hr
  have hhi : 0 < hi := by
    rcases div_pos_iff.mp hdiv with ⟨h, _⟩ | ⟨_, hb⟩
    · exact h
    · linarith
  rw [probe_cache_line_size_detect, hlen]
  apply scanFirst_first _ _ _ k (k + m - 3) 2 hk (by omega)
  · intro s h2 hsk
    have ha : (List.replicate k lo ++ List.replicate m hi).getD s 0 = lo := by
      rw [stepCurve_getD, if_pos hsk]
    have hb : (List.replicate k lo ++ List.replicate m hi).getD (s - 1) 0 = lo := by
      rw [stepCurve_getD, if_pos (by omega)]
    have hg : growth (List.replicate k lo ++ List.replicate m hi) s = 1 := by
      rw [growth, ha, hb, div_self (ne_of_gt hlo)]
    rw [hg]
    norm_num
  · have ha : (List.replicate k lo ++ List.replicate m hi).getD k 0 = hi := by
      rw [stepCurve_getD, if_neg (by omega), if_pos (by omega)]
    have hb : (List.replicate k lo ++ List.replicate m hi).getD (k - 1) 0 = lo := by
      rw [stepCurve_getD, if_pos (by omega)]
    have hc : (List.replicate k lo ++ List.replicate m hi).getD (k + 1) 0 = hi := by
      rw [stepCurve_getD, if_neg (by omega), if_pos (by omega)]
    have hgk : growth (List.replicate k lo ++ List.replicate m hi) k = hi / lo := by
      rw [growth, ha, hb]
    have hgk1 : growth (List.replicate k lo ++ List.replicate m hi) (k + 1) = 1 := by
      rw [growth, hc, show k + 1 - 1 = k by omega, ha, div_self (ne_of_gt hhi)]
    rw [hgk, hgk1]
    have h1 : decide ((13:ℚ)/10 < hi / lo) = true := decide_eq_true hr
    have h2 : decide ((1:ℚ) < 13/10) = true := by norm_num
    rw [h1, h2]
    rfl

/-- Witness for the amended C3 theorem at the concrete step curve
`[1,1,1,1,3,3,3,3]` over the full stride sweep: the detector reports
`strides[4] = 128`. -/
theorem C3_amended_step_at_k_witness :
    probe_cache_line_size_detect stridesFull
      (List.replicate 4 (1:ℚ) ++ List.replicate 4 3) = stridesFull.getD 4 0 :=
  C3_amended_step_at_k 4 4 1 3 stridesFull (by norm_num) (by norm_num) (by norm_num)
    (by norm_num) rfl

/-- C7: on a flat curve (all samples equal to some positive value) no
ratio satisfies any detector's threshold, and each detector returns its
documented built-in default: 64-byte line, 8-way associativity,
4096-byte page, 64-entry TLB. -/
theorem C7_flat_curve_defaults (v : ℚ) (hv : 0 < v) :
    probe_cache_line_size_detect stridesFull (List.replicate 8 v) = 64 ∧
    probe_associativity_detect (List.replicate 11 v) = 8 ∧
    probe_page_size_detect (List.replicate 6 v) = 4096 ∧
    probe_tlb_size_detect (List.replicate 10 v) = 64 := by
  refine ⟨?_, ?_, ?_, ?_⟩
  · rw [probe_cache_line_size_detect]
    apply scanFirst_eq_default
    intro s hs
    rcases (mem_idxList _ _ _).mp hs with ⟨h1, h2⟩
    have hln : stridesFull.length = 8 := rfl
    have hg : growth (List.replicate 8 v) s = 1 :=
      growth_replicate 8 v hv s (by omega) (by omega)
    rw [hg, decide_eq_false (by norm_num : ¬ ((13:ℚ)/10 < 1)), Bool.false_and]
  · have h : ∀ t ∈ idxList 1 (waysList.length - 1),
        ¬ (13/10 < growth (List.replicate 11 v) t) := by
      intro t ht
      rcases (mem_idxList _ _ _).mp ht with ⟨h1, h2⟩
      have hln : waysList.length = 11 := rfl
      have hg : growth (List.replicate 11 v) t = 1 :=
        growth_replicate 11 v hv t h1 (by omega)
      rw [hg]; norm_num
    rw [probe_associativity_detect, assoc_fold_id _ _ _ h]
  · rw [probe_page_size_detect]
    apply scanFirst_eq_default
    intro s hs
    rcases (mem_idxList _ _ _).mp hs with ⟨h1, h2⟩
    have hln : pageStrides.length = 6 := rfl
    have hg : growth (List.replicate 6 v) s = 1 :=
      growth_replicate 6 v hv s (by omega) (by omega)
    rw [hg]
    exact decide_eq_false (by norm_num : ¬ ((1:ℚ) < 3/5))
  · rw [probe_tlb_size_detect]
    apply scanFirst_eq_default
    intro t ht
    rcases (mem_idxList _ _ _).mp ht with ⟨h1, h2⟩
    have hln : pagesList.length = 10 := rfl
    have hg : growth (List.replicate 10 v) t = 1 :=
      growth_replicate 10 v hv t h1 (by omega)
    rw [hg]
    exact decide_eq_false (by norm_num : ¬ ((5:ℚ)/4 < 1))

/-- Witness for C7 at the concrete flat curve of value 1. -/
theorem C7_flat_curve_defaults_witness :
    (0:ℚ) < 1 ∧
    (probe_cache_line_size_detect stridesFull (List.replicate 8 1) = 64 ∧
     probe_associativity_detect (List.replicate 11 1) = 8 ∧
     probe_page_size_detect (List.replicate 6 1) = 4096 ∧
     probe_tlb_size_detect (List.replicate 10 1) = 64) :=
  ⟨by norm_num, C7_flat_curve_defaults 1 (by norm_num)⟩

/-- C9: on every input curve, each detector returns either its
documented default or a value from its candidate sweep list, and in
particular never an out-of-range value; the detection scans are total
functions of the curve. -/
theorem C9_detectors_stay_in_sweep (times : List ℚ) :
    (probe_cache_line_size_detect stridesFull times = 64 ∨
      probe_cache_line_size_detect stridesFull times ∈ stridesFull) ∧
    (probe_associativity_detect times = 8 ∨ probe_associativity_detect times ∈ waysList) ∧
    (probe_tlb_size_detect times = 64 ∨ probe_tlb_size_detect times ∈ pagesList) ∧
    (probe_page_size_detect times = 4096 ∨ probe_page_size_detect times ∈ pageStrides) := by
  refine ⟨?_, ?_, ?_, ?_⟩
  · rw [probe_cache_line_size_detect]
    rcases scanFirst_mem_or _ _ _ (idxList 2 (stridesFull.length - 3)) with h | ⟨s, hs, he⟩
    · left; exact h
    · right
      rw [he]
      rcases (mem_idxList _ _ _).mp hs with ⟨h1, h2⟩
      have hln : stridesFull.length = 8 := rfl
      have hmem : ∀ s, s < 7 → 2 ≤ s → stridesFull.getD s 0 ∈ stridesFull := by decide
      exact hmem s (by omega) h1
  · rw [probe_associativity_detect]
    rcases assoc_fold_mem times (idxList 1 (waysList.length - 1)) (8, 1) with h | ⟨t, ht, he⟩
    · left; exact h
    · right
      rw [he]
      rcases (mem_idxList _ _ _).mp ht with ⟨h1, h2⟩
      have hln : waysList.length = 11 := rfl
      have hmem : ∀ t, t < 11 → 1 ≤ t → waysList.getD (t - 1) 0 ∈ waysList := by decide
      exact hmem t (by omega) h1
  · rw [probe_tlb_size_detect]
    rcases scanFirst_mem_or _ _ _ (idxList 1 (pagesList.length - 1)) with h | ⟨t, ht, he⟩
    · left; exact h
    · right
      rw [he]
      rcases (mem_idxList _ _ _).mp ht with ⟨h1, h2⟩
      have hln : pagesList.length = 10 := rfl
      have hmem : ∀ t, t < 10 → 1 ≤ t → pagesList.getD (t - 1) 0 ∈ pagesList := by decide
      exact hmem t (by omega) h1
  · rw [probe_page_size_detect]
    rcases scanFirst_mem_or _ _ _ (idxList 2 (pageStrides.length - 2)) with h | ⟨s, hs, he⟩
    · left; exact h
    · right
      rw [he]
      rcases (mem_idxList _ _ _).mp hs with ⟨h1, h2⟩
      have hln : pageStrides.length = 6 := rfl
      have hmem : ∀ s, s < 6 → 2 ≤ s → pageStrides.getD (s - 1) 0 ∈ pageStrides := by decide
      exact hmem s (by omega) h1

/-- Witness for C9 at the empty curve. -/
theorem C9_detectors_stay_in_sweep_witness :
    (probe_cache_line_size_detect stridesFull [] = 64 ∨
      probe_cache_line_size_detect stridesFull [] ∈ stridesFull) ∧
    (probe_associativity_detect [] = 8 ∨ probe_associativity_detect [] ∈ waysList) ∧
    (probe_tlb_size_detect [] = 64 ∨ probe_tlb_size_detect [] ∈ pagesList) ∧
    (probe_page_size_detect [] = 4096 ∨ probe_page_size_detect [] ∈ pageStrides) :=
  C9_detectors_stay_in_sweep []

/-- C10: on every curve, the line-size detection of cache_info.c only
ever reports a value in {32, 64, 128, 256, 512}, and the cores variant
only a value in {32, 64, 128}; the sweep endpoints 8, 16 (and 1024) are
never reported because the scan runs from index 2 to the second-to-last
index and 64 is the default. -/
theorem C10_line_size_never_endpoint (times : List ℚ) :
    probe_cache_line_size_detect stridesFull times ∈ ([32, 64, 128, 256, 512] : List ℕ) ∧
    probe_cache_line_size_detect stridesCores times ∈ ([32, 64, 128] : List ℕ) := by
  constructor
  · rw [probe_cache_line_size_detect]
    rcases scanFirst_mem_or _ _ _ (idxList 2 (stridesFull.length - 3)) with h | ⟨s, hs, he⟩
    · rw [h]; decide
    · rw [he]
      rcases (mem_idxList _ _ _).mp hs with ⟨h1, h2⟩
      have hln : stridesFull.length = 8 := rfl
      have hmem : ∀ s, s < 7 → 2 ≤ s →
          stridesFull.getD s 0 ∈ ([32, 64, 128, 256, 512] : List ℕ) := by decide
      exact hmem s (by omega) h1
  · rw [probe_cache_line_size_detect]
    rcases scanFirst_mem_or _ _ _ (idxList 2 (stridesCores.length - 3)) with h | ⟨s, hs, he⟩
    · rw [h]; decide
    · rw [he]
      rcases (mem_idxList _ _ _).mp hs with ⟨h1, h2⟩
      have hln : stridesCores.length = 6 := rfl
      have hmem : ∀ s, s < 5 → 2 ≤ s →
          stridesCores.getD s 0 ∈ ([32, 64, 128] : List ℕ) := by decide
      exact hmem s (by omega) h1

/-- Witness for C10 at the empty curve. -/
theorem C10_line_size_never_endpoint_witness :
    probe_cache_line_size_detect stridesFull [] ∈ ([32, 64, 128, 256, 512] : List ℕ) ∧
    probe_cache_line_size_detect stridesCores [] ∈ ([32, 64, 128] : List ℕ) :=
  C10_line_size_never_endpoint []

theorem tlbCount_head_pos (rs : List ℤ) (h : 0 < rs.length) :
    1 ≤ tlbCount rs (rs.getD 0 0) := by
  cases rs with
  | nil => simp at h
  | cons a t =>
    simp only [tlbCount, List.getD_cons_zero, List.filter_cons]
    simp

theorem modeInv_step (rs : List ℤ) (hlen : 0 < rs.length) (i : ℕ) (st : ℤ × ℕ)
    (h : ModeInv rs i st) : ModeInv rs (i + 1) (modeStep rs st i) := by
  rcases h with ⟨hi0, hst⟩ | ⟨t, ht, h1, h2, h3, h4⟩
  · subst hi0; subst hst
    rw [modeStep]
    by_cases hc : (1:ℕ) < tlbCount rs (rs.getD 0 0)
    · rw [if_pos hc]
      right
      refine ⟨0, by omega, rfl, rfl, ?_, by omega⟩
      intro j hj
      have : j = 0 := by omega
      subst this; exact le_refl _
    · rw [if_neg hc]
      right
      have he : tlbCount rs (rs.getD 0 0) = 1 := by
        have := tlbCount_head_pos rs hlen; omega
      refine ⟨0, by omega, rfl, he.symm, ?_, by omega⟩
      intro j hj
      have : j = 0 := by omega
      subst this; rw [he]
  · rw [modeStep]
    by_cases hc : st.2 < tlbCount rs (rs.getD i 0)
    · rw [if_pos hc]
      right
      refine ⟨i, by omega, rfl, rfl, ?_, ?_⟩
      · intro j hj
        rcases Nat.lt_succ_iff_lt_or_eq.mp hj with hj2 | hj2
        · exact le_of_lt (lt_of_le_of_lt (h3 j hj2) hc)
        · subst hj2; exact le_refl _
      · intro j hj
        exact lt_of_le_of_lt (h3 j (by omega)) hc
    · rw [if_neg hc]
      right
      refine ⟨t, by omega, h1, h2, ?_, h4⟩
      intro j hj
      rcases Nat.lt_succ_iff_lt_or_eq.mp hj with hj2 | hj2
      · exact h3 j hj2
      · subst hj2; omega

theorem modeInv_fold (rs : List ℤ) (hlen : 0 < rs.length) :
    ∀ (b a : ℕ) (st : ℤ × ℕ), ModeInv rs a st →
      ModeInv rs (a + b) ((idxList a b).foldl (modeStep rs) st) := by
  intro b
  induction b with
  | zero => intro a st h; simpa using h
  | succ b ih =>
    intro a st h
    rw [show idxList a (b + 1) = a :: idxList (a + 1) b from rfl, List.foldl_cons,
        show a + (b + 1) = (a + 1) + b by omega]
    exact ih (a + 1) _ (modeInv_step rs hlen a st h)

theorem mode_firstMode (rs : List ℤ) (hlen : 0 < rs.length) :
    FirstMode rs (tlbModeOf rs) := by
  have h := modeInv_fold rs hlen rs.length 0 (rs.getD 0 0, 1) (Or.inl ⟨rfl, rfl⟩)
  rw [Nat.zero_add] at h
  rcases h with ⟨h1, _⟩ | ⟨t, ht, h1, h2, h3, h4⟩
  · omega
  · refine ⟨t, ht, h1, ?_, ?_⟩
    · intro j hj
      have := h3 j hj
      rwa [h2] at this
    · intro j hj
      have := h4 j hj
      rwa [h2] at this

/-- C5: the majority-vote selection of the top-level TLB flow reports 64
on the trial results [64,64,128,64,64,64,32,64,64,128], and on every
length-10 result list it reports the value whose count is maximal,
picking the value encountered first in iteration order whenever several
values tie for the highest frequency. -/
theorem C5_tlb_majority_vote :
    tlbModeOf tlbTrialResults = 64 ∧
    ∀ rs : List ℤ, rs.length = 10 → FirstMode rs (tlbModeOf rs) := by
  constructor
  · norm_num [tlbModeOf, modeStep, idxList, tlbCount, tlbTrialResults, List.filter]
  · intro rs h
    exact mode_firstMode rs (by omega)

/-- Witness for C5: the characterization applied to the concrete trial
results list. -/
theorem C5_tlb_majority_vote_witness :
    FirstMode tlbTrialResults (tlbModeOf tlbTrialResults) :=
  C5_tlb_majority_vote.2 tlbTrialResults rfl

theorem assocInv_step (times : List ℚ) (i : ℕ) (hi : 1 ≤ i) (st : ℕ × ℚ)
    (h : AssocInv times i st) : AssocInv times (i + 1) (assocStep times st i) := by
  rcases h with ⟨hst, hall⟩ | ⟨t, ht, h1, h2, h3, h4, h5, h6⟩
  · rw [assocStep]
    by_cases hc : st.2 < growth times i ∧ 13/10 < growth times i
    · rw [if_pos hc]
      right
      refine ⟨i, by omega, hi, hc.2, rfl, rfl, ?_, ?_⟩
      · intro s hs hs1
        rcases Nat.lt_succ_iff_lt_or_eq.mp hs with hs2 | hs2
        · exact le_of_lt (lt_of_le_of_lt (not_lt.mp (hall s hs2 hs1)) hc.2)
        · subst hs2; exact le_refl _
      · intro s hs hs1
        exact lt_of_le_of_lt (not_lt.mp (hall s hs hs1)) hc.2
    · rw [if_neg hc]
      left
      refine ⟨hst, ?_⟩
      intro s hs hs1
      rcases Nat.lt_succ_iff_lt_or_eq.mp hs with hs2 | hs2
      · exact hall s hs2 hs1
      · subst hs2
        intro hgt
        apply hc
        refine ⟨?_, hgt⟩
        rw [hst]
        exact lt_trans (by norm_num) hgt
  · rw [assocStep]
    by_cases hc : st.2 < growth times i ∧ 13/10 < growth times i
    · rw [if_pos hc]
      right
      refine ⟨i, by omega, hi, hc.2, rfl, rfl, ?_, ?_⟩
      · intro s hs hs1
        rcases Nat.lt_succ_iff_lt_or_eq.mp hs with hs2 | hs2
        · refine le_of_lt (lt_of_le_of_lt (h5 s hs2 hs1) ?_)
          rw [← h3]; exact hc.1
        · subst hs2; exact le_refl _
      · intro s hs hs1
        refine lt_of_le_of_lt (h5 s (by omega) hs1) ?_
        rw [← h3]; exact hc.1
    · rw [if_neg hc]
      right
      refine ⟨t, by omega, h1, h2, h3, h4, ?_, h6⟩
      intro s hs hs1
      rcases Nat.lt_succ_iff_lt_or_eq.mp hs with hs2 | hs2
      · exact h5 s hs2 hs1
      · subst hs2
        by_contra hgt
        push_neg at hgt
        apply hc
        constructor
        · rw [h3]; exact hgt
        · exact lt_trans h2 hgt

theorem assocInv_fold (times : List ℚ) :
    ∀ (b a : ℕ), 1 ≤ a → ∀ st : ℕ × ℚ, AssocInv times a st →
      AssocInv times (a + b) ((idxList a b).foldl (assocStep times) st) := by
  intro b
  induction b with
  | zero => intro a _ st h; simpa using h
  | succ b ih =>
    intro a ha st h
    rw [show idxList a (b + 1) = a :: idxList (a + 1) b from rfl, List.foldl_cons,
        show a + (b + 1) = (a + 1) + b by omega]
    exact ih (a + 1) (by omega) _ (assocInv_step times a ha st h)

theorem assoc_detect_maxSpec (times : List ℚ) :
    AssocMaxSpec times (probe_associativity_detect times) := by
  have h0 : AssocInv times 1 (8, 1) := by
    left
    exact ⟨rfl, by omega⟩
  have h := assocInv_fold times (waysList.length - 1) 1 le_rfl (8, 1) h0
  have hln : (1 : ℕ) + (waysList.length - 1) = 11 := rfl
  rw [hln] at h
  rcases h with ⟨hst, hall⟩ | ⟨t, ht, h1, h2, h3, h4, h5, h6⟩
  · left
    constructor
    · exact hall
    · rw [probe_associativity_detect, hst]
  · right
    exact ⟨t, ht, h1, h2, h5, h6, h4⟩

theorem tlb_detect_firstSpec (times : List ℚ) :
    TlbFirstSpec times (probe_tlb_size_detect times) := by
  by_cases h : ∀ t, t < 10 → 1 ≤ t → ¬ (5/4 < growth times t)
  · left
    refine ⟨h, ?_⟩
    rw [probe_tlb_size_detect]
    apply scanFirst_eq_default
    intro t ht
    rcases (mem_idxList _ _ _).mp ht with ⟨h1, h2⟩
    have hln : pagesList.length = 10 := rfl
    exact decide_eq_false (h t (by omega) h1)
  · right
    push_neg at h
    obtain ⟨t0, ht0, h1t0, hgt⟩ := h
    have hex : ∃ t, t < 10 ∧ 1 ≤ t ∧ 5/4 < growth times t := ⟨t0, ht0, h1t0, hgt⟩
    have hspec := Nat.find_spec hex
    refine ⟨Nat.find hex, hspec.1, hspec.2.1, hspec.2.2, ?_, ?_⟩
    · intro s hs hs1
      have hmin := Nat.find_min hex hs
      intro hgs
      have hs10 : s < 10 := by
        have := hspec.1; omega
      exact hmin ⟨hs10, hs1, hgs⟩
    · rw [probe_tlb_size_detect]
      apply scanFirst_first _ _ _ (Nat.find hex) (pagesList.length - 1) 1 hspec.2.1
        (by have : pagesList.length = 10 := rfl; omega)
      · intro s hs1 hs2
        have hmin := Nat.find_min hex hs2
        apply decide_eq_false
        intro hgs
        exact hmin ⟨by have := hspec.1; omega, hs1, hgs⟩
      · exact decide_eq_true hspec.2.2

/-- C6 (amended): the detection step of `probe_associativity` is a
global-maximum strategy (it reports the way count just before the first
occurrence of the single largest ratio, provided that ratio exceeds
1.3), but the detection step of `probe_tlb_size` is a first-match
strategy: it reports the page count just before the first ratio
exceeding 1.25, breaking out of the scan there. -/
theorem C6_detection_strategies :
    (∀ times, AssocMaxSpec times (probe_associativity_detect times)) ∧
    (∀ times, TlbFirstSpec times (probe_tlb_size_detect times)) :=
  ⟨assoc_detect_maxSpec, tlb_detect_firstSpec⟩

/-- Witness for C6 at concrete curves. -/
theorem C6_detection_strategies_witness :
    AssocMaxSpec (List.replicate 11 1)
      (probe_associativity_detect (List.replicate 11 1)) ∧
    TlbFirstSpec c6curve (probe_tlb_size_detect c6curve) :=
  ⟨C6_detection_strategies.1 (List.replicate 11 1),
   C6_detection_strategies.2 c6curve⟩

/-- C6 (counterexample): on the curve `[1, 1.3, 1.3, 2.6, 2.6, ...]` the
TLB detection returns 8 -- the configuration before the first ratio
above 1.25 -- which is not what a global-maximum strategy would return:
the single largest ratio is 2 at `t = 3` (also above 1.25) and the
configuration before it is 32. -/
theorem C6_counterexample : ¬ TlbMaxSpec c6curve (probe_tlb_size_detect c6curve) := by
  have hd : probe_tlb_size_detect c6curve = 8 := by
    norm_num [probe_tlb_size_detect, scanFirst, idxList, growth, c6curve, pagesList]
  rw [hd, TlbMaxSpec]
  rintro (⟨hall, _⟩ | ⟨t, htl, ht1, htg, hmax, hfirst, hd8⟩)
  · refine hall 1 (by omega) (by omega) ?_
    norm_num [growth, c6curve, List.getD]
  · have hteq : t = 1 := by
      interval_cases t
      · rfl
      all_goals (exfalso; revert hd8; decide)
    subst hteq
    have h3 := hmax 3 (by omega) (by omega)
    norm_num [growth, c6curve, List.getD] at h3

theorem szAt_pos : ∀ t, t < 24 → 1 ≤ t → 0 < szAt t := by decide

theorem szAt_strictMono : ∀ u, u < 24 → ∀ t, t < 24 → 1 ≤ u → u < t → szAt u < szAt t := by
  decide

theorem kneeInv_step (times : List ℚ) (i : ℕ) (h1i : 1 ≤ i) (hi24 : i < 24)
    (st : ℕ × ℕ × ℕ) (h : KneeInv times i st) :
    KneeInv times (i + 1) (kneeStep times st i) := by
  obtain ⟨hA, hB, hC⟩ := h
  rw [kneeStep]
  by_cases c1 : st.1 = 0 ∧ szAt i ≤ 196608 ∧ 13/10 < growth times i
  · rw [if_pos c1]
    have hAleft : st.1 = 0 ∧ ∀ s < i, 1 ≤ s → ¬ qual1 times s := by
      rcases hA with h | ⟨t, ht, h1t, hq, he, _⟩
      · exact h
      · exfalso
        have := szAt_pos t (by omega) h1t
        omega
    refine ⟨?_, ?_, ?_⟩
    · right
      refine ⟨i, by omega, h1i, ⟨c1.2.1, c1.2.2⟩, rfl, hAleft.2⟩
    · rcases hB with ⟨h0, hall⟩ | ⟨t, ht, h1t, hq, he, hall⟩
      · left
        refine ⟨h0, ?_⟩
        intro s hs hs1
        rcases Nat.lt_succ_iff_lt_or_eq.mp hs with hs2 | hs2
        · exact hall s hs2 hs1
        · subst hs2
          intro hq2
          have := hq2.1
          have := c1.2.1
          omega
      · right
        exact ⟨t, by omega, h1t, hq, he, hall⟩
    · rcases hC with h0 | ⟨t, ht, h1t, hq, he, hin⟩
      · left; exact h0
      · right
        refine ⟨t, by omega, h1t, hq, he, ?_⟩
        rcases hin with h16 | ⟨u, hu, h1u, hqu, heu⟩
        · left; exact h16
        · right; exact ⟨u, hu, h1u, hqu, heu⟩
  · rw [if_neg c1]
    by_cases c2 : st.2.1 = 0 ∧ 196608 < szAt i ∧ szAt i ≤ 16777216 ∧ 13/10 < growth times i
    · rw [if_pos c2]
      have hBleft : st.2.1 = 0 ∧ ∀ s < i, 1 ≤ s → ¬ qual2 times s := by
        rcases hB with h | ⟨t, ht, h1t, hq, he, _⟩
        · exact h
        · exfalso
          have := szAt_pos t (by omega) h1t
          omega
      refine ⟨?_, ?_, ?_⟩
      · rcases hA with ⟨h0, hall⟩ | ⟨t, ht, h1t, hq, he, hall⟩
        · left
          refine ⟨h0, ?_⟩
          intro s hs hs1
          rcases Nat.lt_succ_iff_lt_or_eq.mp hs with hs2 | hs2
          · exact hall s hs2 hs1
          · subst hs2
            intro hq1
            exact c1 ⟨h0, hq1.1, hq1.2⟩
        · right
          exact ⟨t, by omega, h1t, hq, he, hall⟩
      · right
        refine ⟨i, by omega, h1i, ⟨c2.2.1, c2.2.2.1, c2.2.2.2⟩, rfl, hBleft.2⟩
      · rcases hC with h0 | ⟨t, ht, h1t, hq, he, hin⟩
        · left; exact h0
        · right
          refine ⟨t, by omega, h1t, hq, he, ?_⟩
          rcases hin with h16 | ⟨u, hu, h1u, hqu, heu⟩
          · left; exact h16
          · exfalso
            have := szAt_pos u (by omega) h1u
            omega
    · rw [if_neg c2]
      by_cases c3 : st.2.2 = 0 ∧ 4194304 < szAt i ∧ 3/2 < growth times i
      · rw [if_pos c3]
        refine ⟨?_, ?_, ?_⟩
        · rcases hA with ⟨h0, hall⟩ | ⟨t, ht, h1t, hq, he, hall⟩
          · left
            refine ⟨h0, ?_⟩
            intro s hs hs1
            rcases Nat.lt_succ_iff_lt_or_eq.mp hs with hs2 | hs2
            · exact hall s hs2 hs1
            · subst hs2
              intro hq1
              exact c1 ⟨h0, hq1.1, hq1.2⟩
          · right
            exact ⟨t, by omega, h1t, hq, he, hall⟩
        · rcases hB with ⟨h0, hall⟩ | ⟨t, ht, h1t, hq, he, hall⟩
          · left
            refine ⟨h0, ?_⟩
            intro s hs hs1
            rcases Nat.lt_succ_iff_lt_or_eq.mp hs with hs2 | hs2
            · exact hall s hs2 hs1
            · subst hs2
              intro hq2
              exact c2 ⟨h0, hq2.1, hq2.2.1, hq2.2.2⟩
          · right
            exact ⟨t, by omega, h1t, hq, he, hall⟩
        · right
          refine ⟨i, by omega, h1i, ⟨c3.2.1, c3.2.2⟩, rfl, ?_⟩
          rcases hB with ⟨h0, _⟩ | ⟨u, hu, h1u, hqu, heu, _⟩
          · left
            by_contra h16
            push_neg at h16
            have hg : 13/10 < growth times i := lt_trans (by norm_num) c3.2.2
            have h196 : 196608 < szAt i := by
              have := c3.2.1; omega
            exact c2 ⟨h0, h196, h16, hg⟩
          · right
            exact ⟨u, by omega, h1u, hqu, heu⟩
      · rw [if_neg c3]
        refine ⟨?_, ?_, ?_⟩
        · rcases hA with ⟨h0, hall⟩ | ⟨t, ht, h1t, hq, he, hall⟩
          · left
            refine ⟨h0, ?_⟩
            intro s hs hs1
            rcases Nat.lt_succ_iff_lt_or_eq.mp hs with hs2 | hs2
            · exact hall s hs2 hs1
            · subst hs2
              intro hq1
              exact c1 ⟨h0, hq1.1, hq1.2⟩
          · right
            exact ⟨t, by omega, h1t, hq, he, hall⟩
        · rcases hB with ⟨h0, hall⟩ | ⟨t, ht, h1t, hq, he, hall⟩
          · left
            refine ⟨h0, ?_⟩
            intro s hs hs1
            rcases Nat.lt_succ_iff_lt_or_eq.mp hs with hs2 | hs2
            · exact hall s hs2 hs1
            · subst hs2
              intro hq2
              exact c2 ⟨h0, hq2.1, hq2.2.1, hq2.2.2⟩
          · right
            exact ⟨t, by omega, h1t, hq, he, hall⟩
        · rcases hC with h0 | ⟨t, ht, h1t, hq, he, hin⟩
          · left; exact h0
          · right
            refine ⟨t, by omega, h1t, hq, he, ?_⟩
            rcases hin with h16 | ⟨u, hu, h1u, hqu, heu⟩
            · left; exact h16
            · right; exact ⟨u, hu, h1u, hqu, heu⟩

theorem kneeInv_fold (times : List ℚ) :
    ∀ (b a : ℕ), 1 ≤ a → a + b ≤ 24 → ∀ st : ℕ × ℕ × ℕ, KneeInv times a st →
      KneeInv times (a + b) ((idxList a b).foldl (kneeStep times) st) := by
  intro b
  induction b with
  | zero => intro a _ _ st h; simpa using h
  | succ b ih =>
    intro a ha hab st h
    rw [show idxList a (b + 1) = a :: idxList (a + 1) b from rfl, List.foldl_cons,
        show a + (b + 1) = (a + 1) + b by omega]
    exact ih (a + 1) (by omega) (by omega) _ (kneeInv_step times a ha (by omega) st h)

theorem knee_detect_inv (times : List ℚ) :
    KneeInv times 24 (probe_cache_sizes_detect times) := by
  have h0 : KneeInv times 1 (0, 0, 0) := by
    refine ⟨Or.inl ⟨rfl, ?_⟩, Or.inl ⟨rfl, ?_⟩, Or.inl rfl⟩ <;> omega
  have h := kneeInv_fold times 23 1 le_rfl (by omega) (0, 0, 0) h0
  exact h

/-- C4 (amended): for every latency curve, the sizes returned by the
knee-detection scan of `probe_cache_sizes` satisfy: any two detected
(nonzero) tiers are strictly increasing (l1 < l2 < l3); a tier with no
qualifying jump in its footprint range is exactly 0; l1 and l2 are each
latched at the first qualifying jump in scan order; l3 is latched at
most once, at a qualifying jump (though not necessarily the first
l3-qualifying jump, since a jump in (4MiB, 16MiB] with ratio above 1.5
is claimed by the L2 tier when L2 is still unset). -/
theorem C4_knee_tier_properties (times : List ℚ) :
    ((probe_cache_sizes_detect times).1 ≠ 0 → (probe_cache_sizes_detect times).2.1 ≠ 0 →
      (probe_cache_sizes_detect times).1 < (probe_cache_sizes_detect times).2.1) ∧
    ((probe_cache_sizes_detect times).2.1 ≠ 0 → (probe_cache_sizes_detect times).2.2 ≠ 0 →
      (probe_cache_sizes_detect times).2.1 < (probe_cache_sizes_detect times).2.2) ∧
    ((probe_cache_sizes_detect times).1 ≠ 0 → (probe_cache_sizes_detect times).2.2 ≠ 0 →
      (probe_cache_sizes_detect times).1 < (probe_cache_sizes_detect times).2.2) ∧
    ((∀ s, s < 24 → 1 ≤ s → ¬ qual1 times s) → (probe_cache_sizes_detect times).1 = 0) ∧
    ((∀ s, s < 24 → 1 ≤ s → ¬ qual2 times s) → (probe_cache_sizes_detect times).2.1 = 0) ∧
    ((∀ s, s < 24 → 1 ≤ s → ¬ qual3 times s) → (probe_cache_sizes_detect times).2.2 = 0) ∧
    ((probe_cache_sizes_detect times).1 ≠ 0 → ∃ t, t < 24 ∧ 1 ≤ t ∧ qual1 times t ∧
      (probe_cache_sizes_detect times).1 = szAt t ∧ ∀ s, s < t → 1 ≤ s → ¬ qual1 times s) ∧
    ((probe_cache_sizes_detect times).2.1 ≠ 0 → ∃ t, t < 24 ∧ 1 ≤ t ∧ qual2 times t ∧
      (probe_cache_sizes_detect times).2.1 = szAt t ∧ ∀ s, s < t → 1 ≤ s → ¬ qual2 times s) ∧
    ((probe_cache_sizes_detect times).2.2 ≠ 0 → ∃ t, t < 24 ∧ 1 ≤ t ∧ qual3 times t ∧
      (probe_cache_sizes_detect times).2.2 = szAt t) := by
  obtain ⟨hA, hB, hC⟩ := knee_detect_inv times
  have hA2 : (probe_cache_sizes_detect times).1 ≠ 0 →
      ∃ t, t < 24 ∧ 1 ≤ t ∧ qual1 times t ∧
        (probe_cache_sizes_detect times).1 = szAt t ∧
        ∀ s, s < t → 1 ≤ s → ¬ qual1 times s := by
    intro hne
    rcases hA with ⟨h0, _⟩ | ⟨t, ht, h1t, hq, he, hall⟩
    · exact absurd h0 hne
    · exact ⟨t, ht, h1t, hq, he, fun s hs hs1 => hall s hs hs1⟩
  have hB2 : (probe_cache_sizes_detect times).2.1 ≠ 0 →
      ∃ t, t < 24 ∧ 1 ≤ t ∧ qual2 times t ∧
        (probe_cache_sizes_detect times).2.1 = szAt t ∧
        ∀ s, s < t → 1 ≤ s → ¬ qual2 times s := by
    intro hne
    rcases hB with ⟨h0, _⟩ | ⟨t, ht, h1t, hq, he, hall⟩
    · exact absurd h0 hne
    · exact ⟨t, ht, h1t, hq, he, fun s hs hs1 => hall s hs hs1⟩
  refine ⟨?_, ?_, ?_, ?_, ?_, ?_, hA2, hB2, ?_⟩
  · intro h1 h2
    obtain ⟨t1, _, _, hq1, he1, _⟩ := hA2 h1
    obtain ⟨t2, _, _, hq2, he2, _⟩ := hB2 h2
    have := hq1.1
    have := hq2.1
    omega
  · intro h2 h3
    rcases hC with h0 | ⟨t3, ht3, h1t3, hq3, he3, hin⟩
    · exact absurd h0 h3
    · rcases hin with h16 | ⟨u, hu, h1u, hqu, heu⟩
      · obtain ⟨t2, _, _, hq2, he2, _⟩ := hB2 h2
        have := hq2.2.1
        omega
      · have := szAt_strictMono u (by omega) t3 ht3 h1u hu
        omega
  · intro h1 h3
    rcases hC with h0 | ⟨t3, ht3, h1t3, hq3, he3, _⟩
    · exact absurd h0 h3
    · obtain ⟨t1, _, _, hq1, he1, _⟩ := hA2 h1
      have := hq1.1
      have := hq3.1
      omega
  · intro hno
    rcases hA with ⟨h0, _⟩ | ⟨t, ht, h1t, hq, _, _⟩
    · exact h0
    · exact absurd hq (hno t ht h1t)
  · intro hno
    rcases hB with ⟨h0, _⟩ | ⟨t, ht, h1t, hq, _, _⟩
    · exact h0
    · exact absurd hq (hno t ht h1t)
  · intro hno
    rcases hC with h0 | ⟨t, ht, h1t, hq, _, _⟩
    · exact h0
    · exact absurd hq (hno t ht h1t)
  · intro h3
    rcases hC with h0 | ⟨t, ht, h1t, hq, he, _⟩
    · exact absurd h0 h3
    · exact ⟨t, ht, h1t, hq, he⟩

set_option maxHeartbeats 1000000 in
/-- Witness for C4 at a curve with jumps in all three tiers: the
detected sizes are 32KiB < 256KiB < 24MiB. -/
theorem C4_knee_tier_properties_witness :
    (probe_cache_sizes_detect c4wtimes).1 < (probe_cache_sizes_detect c4wtimes).2.1 ∧
    (probe_cache_sizes_detect c4wtimes).2.1 < (probe_cache_sizes_detect c4wtimes).2.2 := by
  have he : probe_cache_sizes_detect c4wtimes = (32768, 262144, 25165824) := by
    norm_num [probe_cache_sizes_detect, kneeStep, idxList, growth, szAt, c4wtimes,
      sizesFull, List.getD]
  exact ⟨(C4_knee_tier_properties c4wtimes).1 (by rw [he]; norm_num) (by rw [he]; norm_num),
    (C4_knee_tier_properties c4wtimes).2.1 (by rw [he]; norm_num) (by rw [he]; norm_num)⟩

set_option maxHeartbeats 1000000 in
/-- C4 (counterexample): on the curve `c4curve` the first L3-qualifying
jump in scan order is at index 20 (footprint 8MiB, ratio 2 > 1.5), yet
the returned l3 is 24MiB, not 8MiB: that first jump was latched by the
L2 tier, so l3 is not always latched at the first qualifying jump. -/
theorem C4_counterexample :
    (probe_cache_sizes_detect c4curve).2.2 = 25165824 ∧
    qual3 c4curve 20 ∧ (∀ s, s < 20 → 1 ≤ s → ¬ qual3 c4curve s) ∧
    szAt 20 = 8388608 ∧ (25165824 : ℕ) ≠ 8388608 := by
  refine ⟨?_, ?_, ?_, by norm_num [szAt, sizesFull, List.getD], by norm_num⟩
  · have he : probe_cache_sizes_detect c4curve = (0, 8388608, 25165824) := by
      norm_num [probe_cache_sizes_detect, kneeStep, idxList, growth, szAt, c4curve,
        sizesFull, List.getD]
    rw [he]
  · constructor
    · norm_num [szAt, sizesFull, List.getD]
    · norm_num [growth, c4curve, List.getD]
  · intro s hs hs1
    interval_cases s <;>
      simp only [qual3, not_and] <;>
      intro hsz <;>
      norm_num [growth, c4curve, List.getD]

set_option maxHeartbeats 1000000 in
/-- C8: when the workload-buffer allocation fails, the line-size,
associativity, page-size and TLB probes immediately return their
conservative defaults; but `probe_cache_sizes` does not: it breaks out
of the measurement loop and still runs the knee-detection scan over the
uninitialized `times` array, so with every allocation failing (no
element of `times` ever written) a garbage stack content of
`[1, 2, 2, ...]` makes it report a phantom L1 of 4096 bytes instead of
the undetected value (0, 0, 0), whatever was actually measured. -/
theorem C8_alloc_failure_paths :
    (∀ times, probe_cache_line_size_model false times = 64) ∧
    (∀ times, probe_associativity_model false times = 8) ∧
    (∀ times, probe_page_size_model false times = 4096) ∧
    (∀ times, probe_tlb_size_model false times = 64) ∧
    (∀ measured, probe_cache_sizes_model (fun _ => false) measured
        (fun s => if s = 0 then 1 else 2) = (4096, 0, 0)) := by
  refine ⟨fun _ => rfl, fun _ => rfl, fun _ => rfl, fun _ => rfl, fun measured => ?_⟩
  show probe_cache_sizes_detect
      [1, 2, 2, 2, 2, 2, 2, 2, 2, 2, 2, 2, 2, 2, 2, 2, 2, 2, 2, 2, 2, 2, 2, 2] =
    (4096, 0, 0)
  norm_num [probe_cache_sizes_detect, kneeStep, idxList, growth, szAt, sizesFull,
    List.getD]
